import Mathlib

/-!
Verification development for the Dandanplay danmaku service
(`addons/service.dandanplay/service.py`).

The Python source works with floats, strings and JSON dictionaries.  The
shallow embedding below models:

* Python floats as exact rationals, carried as an integer numerator with a
  positive integer denominator (`Q`); every arithmetic operation of the
  source is mirrored on this representation, and `Q.toRat` maps into
  Mathlib's `ℚ` for stating order facts.  (The float values reached by this
  program are produced by `float(...)` on decimal literals and by the
  arithmetic steps mirrored here; rounding comparisons performed by the
  source never fall inside one float ulp of a tie, so exact rational
  arithmetic yields the same branch decisions and the same formatted
  digits.)
* Python `str` values as Lean `String`s.  `str.strip`, `str.split(",")` and
  single-character `str.replace` are re-implemented on `List Char`
  (`pyStrip`, `splitOnComma`, `replaceChar`) because the shallow embedding
  must stay executable inside the kernel.  `str.strip` is modelled with
  ASCII whitespace; `float(...)`/`int(...)` are modelled for the decimal
  forms (sign, digits, fraction, exponent) without the exotic `inf`/`nan`
  /underscore spellings, which this service never receives from the API.
* JSON dictionary fields as `Option` values; Python truthiness of a field
  is `pyTruthyVal`/`strTruthy`.  A dictionary read with `.get` cannot
  distinguish an absent key from a key stored as `None`, but `bool(dict)`
  can, so `TokenMap` carries an explicit `nonempty` flag for the dict
  truthiness test done by `_token_valid` and `ensure_token`.
* Network I/O as explicit outcome parameters (`HttpResp`, `LoginOutcome`);
  `datetime.fromisoformat` (a Python library routine, not code of this
  repository) is abstracted as a `parseIso` parameter of `token_valid`.
-/

namespace Danmaku

/-- Exact rational value of a Python float: numerator over positive
denominator, not necessarily reduced.  Comparisons cross-multiply, so all
kernel evaluation stays inside `Int`. -/
structure Q where
  num : ℤ
  den : ℤ
  den_pos : 0 < den

def Q.ofInt (n : ℤ) : Q := ⟨n, 1, by decide⟩

def Q.zero : Q := ⟨0, 1, by decide⟩

def Q.add (a b : Q) : Q :=
  ⟨a.num * b.den + b.num * a.den, a.den * b.den, mul_pos a.den_pos b.den_pos⟩

def Q.neg (a : Q) : Q := ⟨-a.num, a.den, a.den_pos⟩

def Q.sub (a b : Q) : Q := a.add b.neg

def Q.mul (a b : Q) : Q :=
  ⟨a.num * b.num, a.den * b.den, mul_pos a.den_pos b.den_pos⟩

/-- `a < b` on rational values (cross-multiplied). -/
def Q.qlt (a b : Q) : Prop := a.num * b.den < b.num * a.den

/-- `a ≤ b` on rational values (cross-multiplied). -/
def Q.qle (a b : Q) : Prop := a.num * b.den ≤ b.num * a.den

instance Q.decQlt (a b : Q) : Decidable (Q.qlt a b) := Int.decLt _ _

instance Q.decQle (a b : Q) : Decidable (Q.qle a b) := Int.decLe _ _

/-- Python `int(x)` truncates toward zero; the service only applies it to
non-negative values, where it agrees with `//`, so the floor form is used.
`Q.floor` is the mathematical floor (`Int.fdiv` floors for positive
denominators). -/
def Q.floor (a : Q) : ℤ := a.num.fdiv a.den

/-- Python `round(x)` (one argument): nearest integer, ties to even. -/
def Q.pyRound (q : Q) : ℤ :=
  let f := q.floor
  let r2 := 2 * (q.num - f * q.den)
  if r2 < q.den then f
  else if q.den < r2 then f + 1
  else if f % 2 = 0 then f else f + 1

/-- Rational value denoted by a `Q`. -/
def Q.toRat (a : Q) : ℚ := (a.num : ℚ) / (a.den : ℚ)

/-- Python float literal `0.6` used by `_scroll_event`. -/
def q06 : Q := ⟨6, 10, by decide⟩

/-! ### Python string helpers -/

/-- `str.replace(c, rep)` for a one-character pattern, on the char list. -/
def replaceChar (c : Char) (rep : List Char) : List Char → List Char
  | [] => []
  | a :: rest => (if a = c then rep else [a]) ++ replaceChar c rep rest

/-- Python `str.strip()` (modelled with ASCII whitespace). -/
def pyStrip (s : String) : String :=
  String.mk (((s.data.dropWhile Char.isWhitespace).reverse.dropWhile
    Char.isWhitespace).reverse)

/-- Python `str.split(",")`. -/
def splitOnComma : List Char → List (List Char)
  | [] => [[]]
  | c :: rest =>
    if c = ',' then [] :: splitOnComma rest
    else
      match splitOnComma rest with
      | [] => [[c]]
      | part :: parts => (c :: part) :: parts

def digitVal (c : Char) : ℕ := c.toNat - 48

def natOfDigits (l : List Char) : ℕ :=
  l.foldl (fun acc c => 10 * acc + digitVal c) 0

/-- Python `int(s)` on a string: optional sign around a non-empty digit
string, surrounding whitespace allowed. -/
def parseIntPy (s : String) : Option ℤ :=
  let core : List Char → Option ℤ := fun l =>
    if l ≠ [] ∧ l.all Char.isDigit then some ((natOfDigits l : ℕ) : ℤ) else none
  match (pyStrip s).data with
  | '+' :: rest => core rest
  | '-' :: rest => (core rest).map (fun n => -n)
  | l => core l

/-- Exponent suffix of a Python float literal (`e`/`E`, optional sign,
digits); an empty remainder leaves the mantissa unchanged. -/
def parseExpPart (mant : Q) : List Char → Option Q
  | [] => some mant
  | c :: rest =>
    if c = 'e' ∨ c = 'E' then
      let stripped : List Char × Bool :=
        match rest with
        | '+' :: r => (r, false)
        | '-' :: r => (r, true)
        | r => (r, false)
      if stripped.1 ≠ [] ∧ stripped.1.all Char.isDigit then
        let e := natOfDigits stripped.1
        some (if stripped.2 then
            ⟨mant.num, mant.den * 10 ^ e,
              mul_pos mant.den_pos (pow_pos (by decide) e)⟩
          else ⟨mant.num * 10 ^ e, mant.den, mant.den_pos⟩)
      else none
    else none

/-- Mantissa of a Python float literal: `digits`, `digits.digits`,
`digits.` or `.digits`. -/
def parseMantissa (l : List Char) : Option (Q × List Char) :=
  let ip := l.takeWhile Char.isDigit
  let r1 := l.dropWhile Char.isDigit
  match r1 with
  | '.' :: r2 =>
    let fp := r2.takeWhile Char.isDigit
    let r3 := r2.dropWhile Char.isDigit
    if ip = [] ∧ fp = [] then none
    else some (⟨((natOfDigits ip : ℕ) : ℤ) * 10 ^ fp.length + ((natOfDigits fp : ℕ) : ℤ),
      (10 : ℤ) ^ fp.length, pow_pos (by decide) fp.length⟩, r3)
  | _ =>
    if ip = [] then none
    else some (⟨((natOfDigits ip : ℕ) : ℤ), 1, by decide⟩, r1)

/-- Python `float(s)` on a string, for the decimal forms produced by the
Dandanplay comment payloads. -/
def parseFloatPy (s : String) : Option Q :=
  let signed : List Char × Bool :=
    match (pyStrip s).data with
    | '+' :: r => (r, false)
    | '-' :: r => (r, true)
    | r => (r, false)
  match parseMantissa signed.1 with
  | none => none
  | some mr =>
    match parseExpPart mr.1 mr.2 with
    | none => none
    | some q => some (if signed.2 then q.neg else q)

/-- Python `f"{n:02d}"` for a non-negative integer. -/
def pad2 (n : ℕ) : String := if n < 10 then "0" ++ toString n else toString n

/-- Python `f"{x:.0f}"`: round half to even, keeping the sign of `-0`. -/
def fmtF0 (q : Q) : String :=
  let n := q.pyRound
  if n = 0 ∧ Q.qlt q Q.zero then "-0" else toString n

def hexDigit (n : ℕ) : Char :=
  if n < 10 then Char.ofNat (48 + n) else Char.ofNat (55 + n)

/-- Python `f"{n:02X}"` for `0 ≤ n < 256`. -/
def toHex2 (n : ℕ) : String := String.mk [hexDigit (n / 16), hexDigit (n % 16)]

def braceOpen : Char := Char.ofNat 123

def braceClose : Char := Char.ofNat 125

/-! ### `DandanplayClient` token management -/

/-- A JSON value read from the token dictionary: a number, a string, or
absent/`None`. -/
abbrev PyVal := Option (Sum Q String)

/-- Python truthiness of such a value. -/
def pyTruthyVal : PyVal → Bool
  | none => false
  | some (Sum.inl q) => decide (q.num ≠ 0)
  | some (Sum.inr s) => decide (s ≠ "")

/-- Python `a or b`: first truthy operand, else the last operand. -/
def pyOr2 (a b : PyVal) : PyVal := if pyTruthyVal a then a else b

/-- Python truthiness of `dict.get("token")` (a string field). -/
def strTruthy : Option String → Bool
  | some s => decide (s ≠ "")
  | none => false

/-- Python `str(value)` for the `token` field. -/
def pyStrOfToken : Option String → String
  | some s => s
  | none => "None"

/-- The token dictionary as read by `_token_valid`/`ensure_token`.
`nonempty` is the truthiness of the dictionary itself (`if not token`),
which field reads via `.get` cannot recover. -/
structure TokenMap where
  expireTime : PyVal
  expiresAt : PyVal
  expire_at : PyVal
  loginTime : PyVal
  issuedAt : PyVal
  token : Option String
  nonempty : Bool

/-- Fallback tail of `_token_valid`: one week from the issue time when
available, else truthiness of the `token` field. -/
def token_valid_issued (now : Q) (token : TokenMap) : Bool :=
  match pyOr2 token.loginTime token.issuedAt with
  | some (Sum.inl issued) => decide (Q.qlt now (issued.add (Q.ofInt (7 * 86400))))
  | _ => strTruthy token.token

/-- `DandanplayClient._token_valid`.  `parseIso` abstracts
`datetime.fromisoformat(...).timestamp()` (`none` models a `ValueError`). -/
def token_valid (now : Q) (parseIso : String → Option Q) (token : TokenMap) : Bool :=
  if token.nonempty = false then false
  else
    match pyOr2 (pyOr2 token.expireTime token.expiresAt) token.expire_at with
    | some (Sum.inl expires) => decide (Q.qlt now (expires.sub (Q.ofInt 60)))
    | some (Sum.inr s) =>
      match parseIso (String.mk (replaceChar 'Z' ['+', '0', '0', ':', '0', '0'] s.data)) with
      | some dt => decide (Q.qlt (now.add (Q.ofInt 60)) dt)
      | none => token_valid_issued now token
    | none => token_valid_issued now token

/-- Outcome of the `/api/v2/login` call inside `ensure_token`: an exception,
or a response with its `token` and `expireAt` fields. -/
inductive LoginOutcome where
  | exc : LoginOutcome
  | resp : Option String → PyVal → LoginOutcome

/-- `DandanplayClient.ensure_token`.  `cached` is the token dictionary
delivered by `_load_token` (memory cache or durable storage); the login
request is abstracted by `login`.  Persisting the fresh token is disk I/O
with no effect on the returned value. -/
def ensure_token (now : Q) (parseIso : String → Option Q) (cached : Option TokenMap)
    (username password app_id app_secret : String) (login : LoginOutcome) :
    Option String :=
  let cachedFallback : Option String :=
    match cached with
    | some c => if c.nonempty then c.token else none
    | none => none
  let validHit : Option String :=
    match cached with
    | some c =>
      if c.nonempty = true ∧ token_valid now parseIso c = true then
        some (pyStrOfToken c.token)
      else none
    | none => none
  match validHit with
  | some t => some t
  | none =>
    if username = "" ∨ password = "" ∨ app_id = "" ∨ app_secret = "" then none
    else
      match login with
      | LoginOutcome.exc => cachedFallback
      | LoginOutcome.resp tok _ =>
        if strTruthy tok then some (pyStrOfToken tok) else cachedFallback

/-! ### `DandanplayClient._request` (401 retry protocol) -/

/-- Outcome of one `urlopen` attempt: a decoded payload or an HTTP error
status. -/
inductive HttpResp where
  | ok : String → HttpResp
  | httpError : ℕ → HttpResp

/-- Observable trace of one `_request` call: the returned payload or raised
status, the `Authorization` header attached to each attempt (in order), how
many times `ensure_token` was invoked after invalidating the cache, and
whether the in-memory cache was invalidated. -/
structure RequestTrace where
  result : Except ℕ String
  auth_headers : List (Option String)
  token_refreshes : ℕ
  cache_invalidated : Bool

def bearer (tok : Option String) : Option String :=
  tok.map (fun t => "Bearer " ++ t)

/-- `DandanplayClient._request`.  `token0` is what `ensure_token` yields
before the first attempt, `refreshed` what it yields after the 401-triggered
invalidation; `resp1`/`resp2` are the server's answers to the two possible
attempts. -/
def request (authenticated retry : Bool) (token0 refreshed : Option String)
    (resp1 resp2 : HttpResp) : RequestTrace :=
  let h1 := if authenticated then bearer token0 else none
  match resp1 with
  | HttpResp.ok payload => ⟨Except.ok payload, [h1], 0, false⟩
  | HttpResp.httpError code =>
    if code = 401 ∧ authenticated = true ∧ retry = true then
      let h2 := bearer refreshed
      match resp2 with
      | HttpResp.ok payload => ⟨Except.ok payload, [h1, h2], 1, true⟩
      | HttpResp.httpError code2 => ⟨Except.error code2, [h1, h2], 1, true⟩
    else ⟨Except.error code, [h1], 0, false⟩

/-! ### `DandanplayClient.match` selection policy -/

/-- The decoded `/api/v2/match` response: truthiness of `isMatched` and the
`matches` array (possibly absent). -/
structure MatchResponse (α : Type) where
  isMatched : Bool
  matches' : Option (List α)

/-- Candidate selection at the end of `DandanplayClient.match` (the network
and error-catch wrapper returns `none` before this point on any failure). -/
def matchSelect {α : Type} (response : MatchResponse α) : Option α :=
  let ms := response.matches'.getD []
  if response.isMatched = true ∧ ms.isEmpty = false then ms.head?
  else if ms.isEmpty = false then ms.head?
  else none

/-! ### `DanmakuLayout` -/

def play_res_x : ℤ := 1920

def play_res_y : ℤ := 1080

def margin : ℤ := 20

def font_size : ℤ := 48

/-- `int(self.font_size * 1.2)`. -/
def line_height : ℤ := Q.floor ⟨48 * 12, 10, by decide⟩

/-- The scan loop of `_acquire_track`: first index whose free time is at
most the start time. -/
def findFreeIdx (start : Q) : List Q → Option ℕ
  | [] => none
  | free_time :: rest =>
    if Q.qle free_time start then some 0
    else (findFreeIdx start rest).map (fun i => i + 1)

/-- `min(range(len(tracks)), key=lambda i: tracks[i])`: the first index
attaining the minimum. -/
def argminIdx : List Q → ℕ
  | [] => 0
  | [_] => 0
  | a :: b :: rest =>
    if Q.qlt ((b :: rest).getD (argminIdx (b :: rest)) Q.zero) a then
      argminIdx (b :: rest) + 1
    else 0

/-- `DanmakuLayout._acquire_track`: chosen lane index and updated lane
free-times. -/
def acquire_track (tracks : List Q) (start duration : Q) : ℕ × List Q :=
  match findFreeIdx start tracks with
  | some index => (index, tracks.set index (start.add duration))
  | none =>
    let index := argminIdx tracks
    (index, tracks.set index (start.add duration))

/-- `DanmakuLayout._format_time`. -/
def format_time (seconds : Q) : String :=
  let s := if Q.qlt seconds Q.zero then Q.zero else seconds
  let msec := ((s.sub (Q.ofInt s.floor)).mul (Q.ofInt 100)).pyRound.toNat
  let total_seconds := s.floor.toNat
  let hours := total_seconds / 3600
  let minutes := (total_seconds % 3600) / 60
  let secs := total_seconds % 60
  toString hours ++ ":" ++ pad2 minutes ++ ":" ++ pad2 secs ++ "." ++ pad2 msec

/-- `DanmakuLayout._ass_color` (Python `>>` and `& 0xFF` on arbitrary ints
are floor-shift and nonnegative remainder). -/
def ass_color (rgb : ℤ) : String :=
  let r := ((rgb.fdiv 65536).emod 256).toNat
  let g := ((rgb.fdiv 256).emod 256).toNat
  let b := (rgb.emod 256).toNat
  "&H00" ++ toHex2 b ++ toHex2 g ++ toHex2 r ++ "&"

/-- `DanmakuLayout._escape`: the five sequential `str.replace` passes. -/
def escape (text : String) : String :=
  let l1 := replaceChar '\\' ['\\', '\\'] text.data
  let l2 := replaceChar braceOpen ['\\', braceOpen] l1
  let l3 := replaceChar braceClose ['\\', braceClose] l2
  let l4 := replaceChar '\r' [' '] l3
  let l5 := replaceChar '\n' ['\\', 'N'] l4
  String.mk l5

/-- `DanmakuLayout._scroll_event`: the dialogue line and the updated scroll
lane pool. -/
def scroll_event (scroll_duration : ℤ) (tracks : List Q) (start : Q)
    (text color : String) : String × List Q :=
  let a := acquire_track tracks start (Q.ofInt scroll_duration)
  let row := a.1
  let y : ℤ := margin + (row : ℤ) * line_height
  let text_length : ℕ := max text.length 1
  let width : Q := (Q.ofInt ((text_length : ℤ) * font_size)).mul q06
  let start_x : Q := Q.ofInt (play_res_x + 50)
  let end_x : Q := (width.neg).sub (Q.ofInt 50)
  let start_time := format_time start
  let end_time := format_time (start.add (Q.ofInt scroll_duration))
  let overrides := "\x7b\\move(" ++ fmtF0 start_x ++ "," ++ toString y ++ ","
    ++ fmtF0 end_x ++ "," ++ toString y ++ ")\\c" ++ color ++ "\x7d"
  ("Dialogue: 0," ++ start_time ++ "," ++ end_time ++ ",Danmaku,,0,0,0,,"
    ++ overrides ++ escape text, a.2)

/-- `DanmakuLayout._static_event`. -/
def static_event (tracks : List Q) (alignment : String) (start duration : Q)
    (text color : String) : String × List Q :=
  let a := acquire_track tracks start duration
  let row := a.1
  let yTag : ℤ × String :=
    if alignment = "top" then (margin + (row : ℤ) * line_height, "\\an8")
    else (play_res_y - margin - (row : ℤ) * line_height, "\\an2")
  let overrides := "\x7b" ++ yTag.2 ++ "\\pos("
    ++ fmtF0 ⟨play_res_x, 2, by decide⟩ ++ "," ++ fmtF0 (Q.ofInt yTag.1)
    ++ ")\\c" ++ color ++ "\x7d"
  ("Dialogue: 0," ++ format_time start ++ "," ++ format_time (start.add duration)
    ++ ",Danmaku,,0,0,0,," ++ overrides ++ escape text, a.2)

/-- One Dandanplay comment record: its `p` and `m` fields. -/
structure Comment where
  p : Option String
  m : Option String

/-- The parse step of `DanmakuLayout.build`: split `p` on commas and read
timestamp, mode and color; any failure (too few parts or an unparsable
number) is the caught `ValueError`/`IndexError`. -/
def parseP (payload : String) : Option (Q × ℤ × ℤ) :=
  match splitOnComma payload.data with
  | p0 :: p1 :: p2 :: _ =>
    match parseFloatPy (String.mk p0), parseIntPy (String.mk p1),
        parseIntPy (String.mk p2) with
    | some t, some mode, some color => some (t, mode, color)
    | _, _, _ => none
  | _ => none

/-- Constructor arguments of `DanmakuLayout` (after the `max(..., 4)`
floor applied in `__init__`). -/
structure Config where
  scroll_duration : ℤ
  max_comments : ℤ

/-- `DanmakuLayout.__init__` on the two settings. -/
def mkConfig (scroll_duration max_comments : ℤ) : Config :=
  ⟨max scroll_duration 4, max_comments⟩

/-- The mutable state of one `DanmakuLayout.build` invocation: the three
instance lane pools plus the local `count` and `events`. -/
structure BuildState where
  scroll_tracks : List Q
  top_tracks : List Q
  bottom_tracks : List Q
  count : ℕ
  events : List String

/-- The body of the `for comment in comments` loop of `build` (everything
after the `max_comments` break test). -/
def processComment (cfg : Config) (shift : Q) (st : BuildState)
    (comment : Comment) : BuildState :=
  if strTruthy comment.p = false ∨ strTruthy comment.m = false then st
  else
    match parseP (comment.p.getD "") with
    | none => st
    | some (t, mode, color) =>
      let ts0 := t.add shift
      let timestamp := if Q.qlt ts0 Q.zero then Q.zero else ts0
      let color_code := ass_color color
      let clean_text := pyStrip (comment.m.getD "")
      if clean_text = "" then st
      else if mode = 1 then
        let r := scroll_event cfg.scroll_duration st.scroll_tracks timestamp
          clean_text color_code
        { st with scroll_tracks := r.2
                  count := st.count + 1
                  events := st.events ++ [r.1] }
      else if mode = 4 then
        let r := static_event st.bottom_tracks "bottom" timestamp (Q.ofInt 4)
          clean_text color_code
        { st with bottom_tracks := r.2
                  count := st.count + 1
                  events := st.events ++ [r.1] }
      else if mode = 5 then
        let r := static_event st.top_tracks "top" timestamp (Q.ofInt 4)
          clean_text color_code
        { st with top_tracks := r.2
                  count := st.count + 1
                  events := st.events ++ [r.1] }
      else
        let r := scroll_event cfg.scroll_duration st.scroll_tracks timestamp
          clean_text color_code
        { st with scroll_tracks := r.2
                  count := st.count + 1
                  events := st.events ++ [r.1] }

/-- The comment loop of `build`, including the `max_comments` break. -/
def buildLoop (cfg : Config) (shift : Q) : BuildState → List Comment → BuildState
  | st, [] => st
  | st, comment :: rest =>
    if cfg.max_comments ≠ 0 ∧ (st.count : ℤ) ≥ cfg.max_comments then st
    else buildLoop cfg shift (processComment cfg shift st comment) rest

/-- The three lane pools held by a `DanmakuLayout` instance. -/
structure Tracks where
  scroll : List Q
  top : List Q
  bottom : List Q

/-- Lane pools as `__init__` creates them. -/
def initTracks : Tracks :=
  ⟨List.replicate 12 Q.zero, List.replicate 5 Q.zero, List.replicate 5 Q.zero⟩

/-- The fixed style header of `build`. -/
def header : String :=
  "[Script Info]\n; Script generated by Kodi Dandanplay service\nScriptType: v4.00+\nPlayResX: 1920\nPlayResY: 1080\nCollisions: Normal\nWrapStyle: 2\nScaledBorderAndShadow: yes\n\n[V4+ Styles]\nFormat: Name,Fontname,Fontsize,PrimaryColour,SecondaryColour,OutlineColour,BackColour,Bold,Italic,Underline,StrikeOut,ScaleX,ScaleY,Spacing,Angle,BorderStyle,Outline,Shadow,Alignment,MarginL,MarginR,MarginV,Encoding\nStyle: Danmaku,Arial,48,&H00FFFFFF,&H00FFFFFF,&H64000000,&H32000000,0,0,0,0,100,100,0,0,1,2,0,7,20,20,20,1\n\n[Events]\nFormat: Layer,Start,End,Style,Name,MarginL,MarginR,MarginV,Effect,Text\n"

/-- `DanmakuLayout.build`: the produced document together with the lane
pools the instance is left with (`count` and `events` are locals of the
call; the pools are instance state). -/
def build (cfg : Config) (tracks : Tracks) (comments : List Comment)
    (shift : Q) : String × Tracks :=
  let fin := buildLoop cfg shift
    ⟨tracks.scroll, tracks.top, tracks.bottom, 0, []⟩ comments
  (header ++ String.intercalate "\n" fin.events,
    ⟨fin.scroll_tracks, fin.top_tracks, fin.bottom_tracks⟩)

/-- The dialogue records emitted by one `build` call. -/
def buildEvents (cfg : Config) (tracks : Tracks) (comments : List Comment)
    (shift : Q) : List String :=
  (buildLoop cfg shift ⟨tracks.scroll, tracks.top, tracks.bottom, 0, []⟩
    comments).events

/-- Whether `build` emits a dialogue record for this comment: truthy `p`
and `m`, parsable payload, non-blank stripped text. -/
def rendered (c : Comment) : Bool :=
  strTruthy c.p && strTruthy c.m && (parseP (c.p.getD "")).isSome
    && decide (pyStrip (c.m.getD "") ≠ "")

/-- The well-formedness filter named by the specification: a numeric-parsable
`p` field and a non-empty `m` field. -/
def claim_wellformed (c : Comment) : Bool :=
  (match c.p with
    | some s => parseP s
    | none => none).isSome && strTruthy c.m

/-! ### `TrackAllocator` runs -/

/-- One grant of `_acquire_track`: the chosen lane, the requested interval,
and whether the allocator was forced into the overwrite branch (no lane free
at the start time). -/
structure Grant where
  lane : ℕ
  start : Q
  duration : Q
  overwrote : Bool

/-- A sequence of `(start, duration)` acquisitions against one lane pool. -/
def runAcquires : List Q → List (Q × Q) → List Grant
  | _, [] => []
  | tracks, (s, d) :: rest =>
    let a := acquire_track tracks s d
    ⟨a.1, s, d, (findFreeIdx s tracks).isNone⟩ :: runAcquires a.2 rest

/-- Two display intervals `[s₁, s₁+d₁)` and `[s₂, s₂+d₂)` overlap. -/
def overlaps (s1 d1 s2 d2 : ℚ) : Prop := s1 < s2 + d2 ∧ s2 < s1 + d1

/-- Rational free-time of lane `j` in a pool. -/
def trackVal (l : List Q) (j : ℕ) : ℚ := (l.getD j Q.zero).toRat

/-- Number of comments of a list for which `build` emits a record. -/
def renderedCount (l : List Comment) : ℕ := (l.filter rendered).length

/-! ### Concrete inputs used by witnesses and counterexamples -/

/-- An expired token dictionary (numeric expiry in the past) carrying the
bearer string "abc". -/
def tokenExpiredAbc : TokenMap :=
  ⟨some (Sum.inl (Q.ofInt 900)), none, none, none, none, some "abc", true⟩

/-- A token expiring 30 seconds after the reference instant 1000. -/
def tokenPlus30 : TokenMap :=
  ⟨some (Sum.inl (Q.ofInt 1030)), none, none, none, none, some "t", true⟩

/-- A token expiring 120 seconds after the reference instant 1000. -/
def tokenPlus120 : TokenMap :=
  ⟨some (Sum.inl (Q.ofInt 1120)), none, none, none, none, some "t", true⟩

/-- An ISO-parse stub that always fails (never consulted by the numeric
branches exercised in the witnesses). -/
def isoNone : String → Option Q := fun _ => none

/-- A well-formed scrolling comment at timestamp 0. -/
def commentScroll0 : Comment := ⟨some "0,1,16777215", some "a"⟩

/-- A comment whose `p` field is not numeric. -/
def commentBadP : Comment := ⟨some "x", some "hi"⟩

/-- Acquisition requests used by the allocator witness. -/
def reqsWitness : List (Q × Q) :=
  [(Q.ofInt 0, Q.ofInt 4), (Q.ofInt 5, Q.ofInt 4)]

/-- A scrolling comment at timestamp 5 (shifted negative in the clamp
witness). -/
def commentAt5 : Comment := ⟨some "5,1,16777215", some "a"⟩

/-- A scrolling comment at timestamp 0.999, which trips the centisecond
rounding of `_format_time`. -/
def comment999 : Comment := ⟨some "0.999,1,16777215", some "a"⟩

/-- A build state with fresh lane pools and empty locals. -/
def emptyState : BuildState :=
  ⟨List.replicate 12 Q.zero, List.replicate 5 Q.zero, List.replicate 5 Q.zero, 0, []⟩

end Danmaku

namespace Danmaku

set_option maxRecDepth 10000

/-! ## Transfer lemmas for `Q` -/

theorem Q.den_ne (a : Q) : ((a.den : ℚ)) ≠ 0 := by
  exact_mod_cast a.den_pos.ne'

theorem Q.qlt_iff (a b : Q) : Q.qlt a b ↔ a.toRat < b.toRat := by
  unfold Q.qlt Q.toRat
  rw [div_lt_div_iff₀ (by exact_mod_cast a.den_pos) (by exact_mod_cast b.den_pos)]
  exact_mod_cast Iff.rfl

theorem Q.qle_iff (a b : Q) : Q.qle a b ↔ a.toRat ≤ b.toRat := by
  unfold Q.qle Q.toRat
  rw [div_le_div_iff₀ (by exact_mod_cast a.den_pos) (by exact_mod_cast b.den_pos)]
  exact_mod_cast Iff.rfl

theorem Q.toRat_add (a b : Q) : (a.add b).toRat = a.toRat + b.toRat := by
  unfold Q.add Q.toRat
  rw [div_add_div _ _ a.den_ne b.den_ne]
  push_cast
  ring_nf

theorem Q.toRat_neg (a : Q) : a.neg.toRat = -a.toRat := by
  unfold Q.neg Q.toRat
  push_cast
  ring_nf

theorem Q.toRat_sub (a b : Q) : (a.sub b).toRat = a.toRat - b.toRat := by
  unfold Q.sub
  rw [Q.toRat_add, Q.toRat_neg]
  ring

theorem Q.toRat_ofInt (n : ℤ) : (Q.ofInt n).toRat = (n : ℚ) := by
  unfold Q.ofInt Q.toRat
  norm_num

theorem Q.toRat_zero : Q.zero.toRat = 0 := by
  unfold Q.zero Q.toRat
  norm_num

/-! ## C1: the 401 retry protocol of `_request` -/

/-- C1: on a 401 answer to an authenticated request (with retry enabled,
as every caller leaves it), `_request` invalidates the in-memory token,
invokes `ensure_token` exactly once for a fresh token, retries the same
request exactly once — attaching the fresh bearer token, or no
`Authorization` header when none was obtained — returns that retry's
outcome as its own, and never attempts a third request. -/
theorem request_401_retry (token0 refreshed : Option String) (resp2 : HttpResp) :
    (request true true token0 refreshed (HttpResp.httpError 401) resp2).cache_invalidated
        = true ∧
    (request true true token0 refreshed (HttpResp.httpError 401) resp2).token_refreshes
        = 1 ∧
    (request true true token0 refreshed (HttpResp.httpError 401) resp2).auth_headers
        = [bearer token0, bearer refreshed] ∧
    (request true true token0 refreshed (HttpResp.httpError 401) resp2).result
        = (match resp2 with
          | HttpResp.ok payload => Except.ok payload
          | HttpResp.httpError code2 => Except.error code2) ∧
    (request true true token0 refreshed (HttpResp.httpError 401) resp2).auth_headers.length
        = 2 := by
  cases resp2 <;> simp [request]

/-! ## C2: selection policy of `match` -/

/-- C2: `match` returns the first candidate exactly when the response
reports a confident match with candidates present or, failing that, when
any candidate exists at all; with an empty or absent candidate list it
returns none. -/
theorem match_first_candidate {α : Type} (response : MatchResponse α) (c : α) :
    matchSelect response = some c ↔
      (((response.isMatched = true ∧ (response.matches'.getD []).isEmpty = false) ∨
          (response.matches'.getD []).isEmpty = false) ∧
        (response.matches'.getD []).head? = some c) := by
  unfold matchSelect
  by_cases hM : response.isMatched = true <;>
    cases hE : (response.matches'.getD []).isEmpty <;>
      simp [hM, hE]

/-! ## C9: centisecond formatting of `_format_time` -/

/-- C9: refuted on the code — the claim demands a two-digit centisecond
field `CC ∈ 00–99` for every non-negative event time, but
`_format_time(0.999)` computes `msec = int(round(0.999 * 100)) = 100` and
prints it through `{msec:02d}` without carrying into the seconds, yielding
`0:00:00.100`; through `build`, a comment at timestamp 0.999 emits that
malformed start (and end) timestamp. -/
theorem format_time_centisecond_overflow :
    format_time ⟨999, 1000, by decide⟩ = "0:00:00.100" ∧
    buildEvents (mkConfig 6 0) initTracks [comment999] Q.zero =
      ["Dialogue: 0,0:00:00.100,0:00:06.100,Danmaku,,0,0,0,,\x7b\\move(1970,20,-79,20)\\c&H00FFFFFF&\x7da"] := by
  constructor
  · decide
  · decide

/-! ## C5: token expiry safety margin -/

/-- C5: a token whose (truthy) numeric expiry field is `expires` is treated
as valid exactly while `now < expires - 60`; in particular (see the
witness) `expireTime = now + 30` is invalid and `expireTime = now + 120` is
valid. -/
theorem token_valid_margin (now expires : Q) (parseIso : String → Option Q)
    (t : TokenMap) (hne : t.nonempty = true)
    (hexp : t.expireTime = some (Sum.inl expires)) (hnz : expires.num ≠ 0) :
    (token_valid now parseIso t = true ↔ now.toRat < expires.toRat - 60) := by
  unfold token_valid
  rw [if_neg (by simp [hne])]
  rw [hexp]
  have htr : pyTruthyVal (some (Sum.inl expires)) = true := by
    simp [pyTruthyVal, hnz]
  simp only [pyOr2, htr, if_pos]
  rw [decide_eq_true_iff, Q.qlt_iff, Q.toRat_sub, Q.toRat_ofInt]
  norm_num

/-- C5 witness: at the reference instant 1000, the `+30` token is rejected
and the `+120` token is accepted. -/
theorem token_valid_margin_witness :
    token_valid (Q.ofInt 1000) isoNone tokenPlus30 = false ∧
    token_valid (Q.ofInt 1000) isoNone tokenPlus120 = true := by
  constructor
  · cases hb : token_valid (Q.ofInt 1000) isoNone tokenPlus30
    · rfl
    · exfalso
      have h := (token_valid_margin (Q.ofInt 1000) (Q.ofInt 1030) isoNone tokenPlus30
        rfl rfl (by decide)).mp hb
      rw [Q.toRat_ofInt, Q.toRat_ofInt] at h
      norm_num at h
  · exact (token_valid_margin (Q.ofInt 1000) (Q.ofInt 1120) isoNone tokenPlus120
      rfl rfl (by decide)).mpr
      (by rw [Q.toRat_ofInt, Q.toRat_ofInt]; norm_num)

/-! ## C6: `ensure_token` degradation on login failure -/

/-- C6: refuted as stated — with an invalid cached token present and
incomplete credentials, `ensure_token` returns none even though a cached
token exists (the claim demands the cached token).  The cached dictionary
here is nonempty, carries bearer string "abc", fails validation, the
username is empty, and the call returns none. -/
theorem ensure_token_incomplete_creds_cex :
    tokenExpiredAbc.nonempty = true ∧
    tokenExpiredAbc.token = some "abc" ∧
    token_valid (Q.ofInt 1000) isoNone tokenExpiredAbc = false ∧
    ensure_token (Q.ofInt 1000) isoNone (some tokenExpiredAbc) "" "pw" "id" "sec"
      LoginOutcome.exc = none := by
  refine ⟨rfl, rfl, ?_, ?_⟩ <;> decide

/-- C6 (amended): when the cached token is invalid or absent, a failed (or
token-less) login with complete credentials makes `ensure_token` fall back
to the previously cached token value if a cached dictionary exists (none
otherwise); but with incomplete credentials it returns none unconditionally,
even when a cached token exists. -/
theorem ensure_token_degraded (now : Q) (parseIso : String → Option Q)
    (cached : Option TokenMap) (username password app_id app_secret : String)
    (login : LoginOutcome)
    (hmiss : ∀ c, cached = some c →
      ¬(c.nonempty = true ∧ token_valid now parseIso c = true)) :
    ((username = "" ∨ password = "" ∨ app_id = "" ∨ app_secret = "") →
      ensure_token now parseIso cached username password app_id app_secret login
        = none) ∧
    ((username ≠ "" ∧ password ≠ "" ∧ app_id ≠ "" ∧ app_secret ≠ "") →
      (login = LoginOutcome.exc ∨
        ∃ tok e, login = LoginOutcome.resp tok e ∧ strTruthy tok = false) →
      ensure_token now parseIso cached username password app_id app_secret login
        = (match cached with
          | some c => if c.nonempty then c.token else none
          | none => none)) := by
  have hhit : (match cached with
      | some c =>
        if c.nonempty = true ∧ token_valid now parseIso c = true then
          some (pyStrOfToken c.token)
        else none
      | none => (none : Option String)) = none := by
    cases cached with
    | none => rfl
    | some c => simp [hmiss c rfl]
  unfold ensure_token
  simp only [hhit]
  constructor
  · intro hcred
    rw [if_pos hcred]
  · intro hcred hfail
    rw [if_neg (by tauto)]
    rcases hfail with hexc | ⟨tok, e, hresp, htok⟩
    · rw [hexc]
      cases cached <;> rfl
    · rw [hresp]
      cases cached <;> simp [htok]

/-- C6 witness for the amended statement: the incomplete-credential call
returns none, and the complete-credential call with a failing login returns
the stale cached bearer "abc". -/
theorem ensure_token_degraded_witness :
    ensure_token (Q.ofInt 1000) isoNone (some tokenExpiredAbc) "" "pw" "id" "sec"
      LoginOutcome.exc = none ∧
    ensure_token (Q.ofInt 1000) isoNone (some tokenExpiredAbc) "u" "pw" "id" "sec"
      LoginOutcome.exc = some "abc" := by
  have hmiss : ∀ c, (some tokenExpiredAbc : Option TokenMap) = some c →
      ¬(c.nonempty = true ∧ token_valid (Q.ofInt 1000) isoNone c = true) := by
    intro c hc
    injection hc with hc'
    subst hc'
    decide
  constructor
  · exact (ensure_token_degraded (Q.ofInt 1000) isoNone (some tokenExpiredAbc)
      "" "pw" "id" "sec" LoginOutcome.exc hmiss).1 (Or.inl rfl)
  · have h := (ensure_token_degraded (Q.ofInt 1000) isoNone (some tokenExpiredAbc)
      "u" "pw" "id" "sec" LoginOutcome.exc hmiss).2
      (by refine ⟨?_, ?_, ?_, ?_⟩ <;> decide) (Or.inl rfl)
    simpa using h

/-! ## Skip/emit behaviour of the `build` loop -/

theorem processComment_skip (cfg : Config) (shift : Q) (st : BuildState)
    (c : Comment) (h : rendered c = false) : processComment cfg shift st c = st := by
  unfold processComment
  by_cases hp : strTruthy c.p = true
  · by_cases hm : strTruthy c.m = true
    · rw [if_neg (by simp [hp, hm])]
      cases hpp : parseP (c.p.getD "") with
      | none => rfl
      | some triple =>
        obtain ⟨t, mode, color⟩ := triple
        have hclean : pyStrip (c.m.getD "") = "" := by
          unfold rendered at h
          rw [hp, hm, hpp] at h
          simpa using h
        simp [hclean]
    · have hm' : strTruthy c.m = false := by
        revert hm; cases strTruthy c.m <;> simp
      rw [if_pos (Or.inr hm')]
  · have hp' : strTruthy c.p = false := by
      revert hp; cases strTruthy c.p <;> simp
    rw [if_pos (Or.inl hp')]

theorem claim_wellformed_false_rendered (c : Comment)
    (h : claim_wellformed c = false) : rendered c = false := by
  unfold claim_wellformed at h
  unfold rendered
  cases hc : c.p with
  | none => simp [strTruthy]
  | some s =>
    rw [hc] at h
    by_cases hm : strTruthy c.m = true
    · have hps : (parseP s).isSome = false := by
        revert h; rw [hm]; cases (parseP s).isSome <;> simp
      have hnone : parseP s = none := by
        revert hps; cases parseP s <;> simp
      simp [hc, hnone]
    · have hm' : strTruthy c.m = false := by
        revert hm; cases strTruthy c.m <;> simp
      simp [hm']

theorem buildLoop_cons (cfg : Config) (shift : Q) (st : BuildState)
    (c : Comment) (rest : List Comment) :
    buildLoop cfg shift st (c :: rest) =
      (if cfg.max_comments ≠ 0 ∧ (st.count : ℤ) ≥ cfg.max_comments then st
       else buildLoop cfg shift (processComment cfg shift st c) rest) := rfl

theorem buildLoop_break (cfg : Config) (shift : Q) (st : BuildState)
    (h : cfg.max_comments ≠ 0 ∧ (st.count : ℤ) ≥ cfg.max_comments) :
    ∀ l : List Comment, buildLoop cfg shift st l = st := by
  intro l
  cases l with
  | nil => rfl
  | cons c rest =>
    unfold buildLoop
    rw [if_pos h]

theorem buildLoop_all_skip (cfg : Config) (shift : Q) :
    ∀ (l : List Comment) (st : BuildState), (∀ c ∈ l, rendered c = false) →
      buildLoop cfg shift st l = st := by
  intro l
  induction l with
  | nil => intro st _; rfl
  | cons c rest ih =>
    intro st h
    by_cases hbr : cfg.max_comments ≠ 0 ∧ (st.count : ℤ) ≥ cfg.max_comments
    · exact buildLoop_break cfg shift st hbr _
    · unfold buildLoop
      rw [if_neg hbr, processComment_skip cfg shift st c (h c (by simp))]
      exact ih st (fun x hx => h x (by simp [hx]))

/-! ## C4: repeated `build` calls and hidden lane state -/

/-- C4: refuted as stated — the lane pools are created in `__init__`, not
per `build` call, and `build` mutates them, so a second call with the same
comment list and shift starts from different lane free-times and produces
different bytes.  Concretely, one scrolling comment at timestamp 0 lands in
lane 0 (`y = 20`) on the first call and in lane 1 (`y = 77`) on the second. -/
theorem build_second_call_differs :
    (build (mkConfig 6 0) initTracks [commentScroll0] Q.zero).1 ≠
      (build (mkConfig 6 0)
        (build (mkConfig 6 0) initTracks [commentScroll0] Q.zero).2
        [commentScroll0] Q.zero).1 := by
  decide

/-- C4 (amended): `build`'s output is a pure function of the lane pools,
the configuration, the comment list and the shift; two successive calls on
one instance are byte-identical whenever the list makes `build` emit no
record (then the pools are left untouched), but in general the pools are
constructed once per instance and persist across calls, so a second
identical call may differ (`build_second_call_differs`).  The orchestrator
sidesteps this by constructing a fresh `DanmakuLayout` per video. -/
theorem build_unrendered_stable (cfg : Config) (tracks : Tracks)
    (l : List Comment) (shift : Q) (h : ∀ c ∈ l, rendered c = false) :
    (build cfg tracks l shift).2 = tracks ∧
    (build cfg (build cfg tracks l shift).2 l shift).1 =
      (build cfg tracks l shift).1 := by
  have hl := buildLoop_all_skip cfg shift l
    ⟨tracks.scroll, tracks.top, tracks.bottom, 0, []⟩ h
  have h2 : (build cfg tracks l shift).2 = tracks := by
    unfold build
    simp only [hl]
  exact ⟨h2, by rw [h2]⟩

/-- C4 witness: a list holding only a malformed comment leaves the pools
unchanged and the two successive outputs equal. -/
theorem build_unrendered_stable_witness :
    (build (mkConfig 6 0) initTracks [commentBadP] Q.zero).2 = initTracks ∧
    (build (mkConfig 6 0) (build (mkConfig 6 0) initTracks [commentBadP] Q.zero).2
      [commentBadP] Q.zero).1 =
      (build (mkConfig 6 0) initTracks [commentBadP] Q.zero).1 :=
  build_unrendered_stable (mkConfig 6 0) initTracks [commentBadP] Q.zero
    (by decide)

/-! ## C8: malformed comments contribute nothing -/

theorem buildLoop_filter (cfg : Config) (shift : Q) :
    ∀ (l : List Comment) (st : BuildState),
      buildLoop cfg shift st l =
        buildLoop cfg shift st (l.filter claim_wellformed) := by
  intro l
  induction l with
  | nil => intro st; rfl
  | cons c rest ih =>
    intro st
    by_cases hbr : cfg.max_comments ≠ 0 ∧ (st.count : ℤ) ≥ cfg.max_comments
    · rw [buildLoop_break cfg shift st hbr, buildLoop_break cfg shift st hbr]
    · cases hw : claim_wellformed c
      · have hsk := processComment_skip cfg shift st c
          (claim_wellformed_false_rendered c hw)
        rw [show List.filter claim_wellformed (c :: rest)
            = List.filter claim_wellformed rest by simp [List.filter_cons, hw]]
        rw [buildLoop_cons, if_neg hbr, hsk]
        exact ih st
      · rw [show List.filter claim_wellformed (c :: rest)
            = c :: List.filter claim_wellformed rest by simp [List.filter_cons, hw]]
        rw [buildLoop_cons, buildLoop_cons, if_neg hbr, if_neg hbr]
        exact ih (processComment cfg shift st c)

/-- C8: for every comment list and shift, `build` produces the same output
(and the same lane-pool state) as on the sublist with every entry having a
non-numeric `p` field or an empty `m` field removed: such entries are
dropped silently and contribute nothing to the output or to any internal
state. -/
theorem build_drops_malformed (cfg : Config) (tracks : Tracks)
    (l : List Comment) (shift : Q) :
    build cfg tracks l shift =
      build cfg tracks (l.filter claim_wellformed) shift := by
  unfold build
  rw [buildLoop_filter]

/-! ## C10: the `max_comments` cap -/

theorem processComment_count (cfg : Config) (shift : Q) (st : BuildState)
    (c : Comment) :
    (processComment cfg shift st c).count
        = st.count + (if rendered c = true then 1 else 0) ∧
    (processComment cfg shift st c).events.length
        = st.events.length + (if rendered c = true then 1 else 0) := by
  cases hr : rendered c
  · rw [processComment_skip cfg shift st c hr]
    simp
  · have hr' := hr
    unfold rendered at hr'
    simp only [Bool.and_eq_true, decide_eq_true_eq] at hr'
    obtain ⟨⟨⟨hp, hm⟩, hps⟩, hcl⟩ := hr'
    obtain ⟨⟨t, mode, color⟩, hpp⟩ := Option.isSome_iff_exists.mp hps
    unfold processComment
    rw [if_neg (by simp [hp, hm])]
    simp only [hpp]
    rw [if_neg hcl]
    by_cases h1 : mode = 1 <;> by_cases h4 : mode = 4 <;> by_cases h5 : mode = 5 <;>
      simp [h1, h4, h5]

theorem buildLoop_events_length (cfg : Config) (shift : Q) :
    ∀ (l : List Comment) (st : BuildState),
      (buildLoop cfg shift st l).events.length =
        st.events.length +
          (if cfg.max_comments = 0 then renderedCount l
           else min (cfg.max_comments.toNat - st.count) (renderedCount l)) := by
  intro l
  induction l with
  | nil =>
    intro st
    simp [buildLoop, renderedCount]
  | cons c rest ih =>
    intro st
    by_cases hbr : cfg.max_comments ≠ 0 ∧ (st.count : ℤ) ≥ cfg.max_comments
    · rw [buildLoop_break cfg shift st hbr]
      obtain ⟨hne, hge⟩ := hbr
      rw [if_neg hne]
      have h0 : cfg.max_comments.toNat - st.count = 0 := by omega
      rw [h0]
      simp
    · unfold buildLoop
      rw [if_neg hbr, ih (processComment cfg shift st c)]
      obtain ⟨hc, he⟩ := processComment_count cfg shift st c
      rw [hc, he]
      have hrc : renderedCount (c :: rest)
          = (if rendered c = true then 1 else 0) + renderedCount rest := by
        cases hr : rendered c <;>
          simp [renderedCount, List.filter_cons, hr, Nat.add_comm]
      rw [hrc]
      by_cases hz : cfg.max_comments = 0
      · cases hr : rendered c <;> simp [hz, hr] <;> omega
      · have hlt : (st.count : ℤ) < cfg.max_comments := by
          rcases not_and_or.mp hbr with h | h
          · exact absurd (by simpa using h) hz
          · omega
        cases hr : rendered c <;> simp [hz, hr] <;> omega

/-- C10: the number of dialogue records `build` emits equals the number of
well-formed (rendered) comments, capped at `max_comments` when that setting
is non-zero and uncapped when it is 0; skipped malformed entries never
consume the quota. -/
theorem build_max_comments_cap (cfg : Config) (tracks : Tracks)
    (l : List Comment) (shift : Q) :
    (buildEvents cfg tracks l shift).length =
      (if cfg.max_comments = 0 then renderedCount l
       else min cfg.max_comments.toNat (renderedCount l)) := by
  unfold buildEvents
  rw [buildLoop_events_length]
  simp

/-! ## C3: the track allocator -/

theorem Q.qle_of_qlt {a b : Q} (h : Q.qlt a b) : Q.qle a b := by
  rw [Q.qlt_iff] at h
  rw [Q.qle_iff]
  exact le_of_lt h

theorem Q.qle_trans {a b c : Q} (h1 : Q.qle a b) (h2 : Q.qle b c) : Q.qle a c := by
  rw [Q.qle_iff] at h1 h2 ⊢
  exact le_trans h1 h2

theorem Q.qle_of_not_qlt {a b : Q} (h : ¬ Q.qlt b a) : Q.qle a b := by
  rw [Q.qlt_iff] at h
  rw [Q.qle_iff]
  exact le_of_not_lt h

theorem getD_set_self (l : List Q) (i : ℕ) (v : Q) (h : i < l.length) :
    (l.set i v).getD i Q.zero = v := by
  simp [List.getD, List.getElem?_set, h]

theorem getD_set_ne (l : List Q) : ∀ (i j : ℕ) (v : Q), j ≠ i →
    (l.set i v).getD j Q.zero = l.getD j Q.zero := by
  induction l with
  | nil => intro i j v _; rfl
  | cons a rest ih =>
    intro i j v h
    cases i with
    | zero =>
      cases j with
      | zero => exact absurd rfl h
      | succ j' => simp [List.set]
    | succ i' =>
      cases j with
      | zero => simp [List.set]
      | succ j' =>
        simp only [List.set, List.getD_cons_succ]
        exact ih i' j' v (fun hh => h (by rw [hh]))

theorem findFreeIdx_some_spec (s : Q) :
    ∀ (l : List Q) (i : ℕ), findFreeIdx s l = some i →
      i < l.length ∧ Q.qle (l.getD i Q.zero) s ∧
        ∀ j < i, ¬ Q.qle (l.getD j Q.zero) s := by
  intro l
  induction l with
  | nil => intro i h; simp [findFreeIdx] at h
  | cons a rest ih =>
    intro i h
    unfold findFreeIdx at h
    by_cases ha : Q.qle a s
    · rw [if_pos ha] at h
      injection h with h'
      subst h'
      exact ⟨by simp, by simpa using ha, fun j hj => absurd hj (Nat.not_lt_zero j)⟩
    · rw [if_neg ha] at h
      obtain ⟨i', hi', rfl⟩ := Option.map_eq_some'.mp h
      obtain ⟨hlen, hle, hall⟩ := ih i' hi'
      refine ⟨by simpa using hlen, by simpa using hle, ?_⟩
      intro j hj
      cases j with
      | zero => simpa using ha
      | succ j' => simpa using hall j' (by omega)

theorem findFreeIdx_none_spec (s : Q) :
    ∀ l : List Q, findFreeIdx s l = none →
      ∀ j < l.length, ¬ Q.qle (l.getD j Q.zero) s := by
  intro l
  induction l with
  | nil => intro _ j hj; simp at hj
  | cons a rest ih =>
    intro h j hj
    unfold findFreeIdx at h
    by_cases ha : Q.qle a s
    · rw [if_pos ha] at h
      exact absurd h (by simp)
    · rw [if_neg ha] at h
      have hrest : findFreeIdx s rest = none := by
        revert h; cases findFreeIdx s rest <;> simp
      cases j with
      | zero => simpa using ha
      | succ j' => simpa using ih hrest j' (by simpa using hj)

theorem argminIdx_cons_cons (a b : Q) (rest : List Q) :
    argminIdx (a :: b :: rest) =
      (if Q.qlt ((b :: rest).getD (argminIdx (b :: rest)) Q.zero) a then
        argminIdx (b :: rest) + 1
      else 0) := rfl

theorem argminIdx_spec : ∀ l : List Q, l ≠ [] →
    argminIdx l < l.length ∧
    (∀ j < l.length, Q.qle (l.getD (argminIdx l) Q.zero) (l.getD j Q.zero)) ∧
    ∀ j < argminIdx l, Q.qlt (l.getD (argminIdx l) Q.zero) (l.getD j Q.zero) := by
  intro l
  induction l with
  | nil => intro h; exact absurd rfl h
  | cons a rest ih =>
    intro _
    cases rest with
    | nil =>
      refine ⟨by simp [argminIdx], ?_, ?_⟩
      · intro j hj
        have hj0 : j = 0 := by simpa using hj
        subst hj0
        simp [argminIdx, Q.qle]
      · intro j hj
        simp [argminIdx] at hj
    | cons b rest2 =>
      obtain ⟨ihlen, ihmin, ihfirst⟩ := ih (by simp)
      by_cases hcmp : Q.qlt ((b :: rest2).getD (argminIdx (b :: rest2)) Q.zero) a
      · rw [argminIdx_cons_cons, if_pos hcmp]
        refine ⟨by simpa using ihlen, ?_, ?_⟩
        · intro j hj
          cases j with
          | zero => simpa using Q.qle_of_qlt hcmp
          | succ j' => simpa using ihmin j' (by simpa using hj)
        · intro j hj
          cases j with
          | zero => simpa using hcmp
          | succ j' => simpa using ihfirst j' (by omega)
      · rw [argminIdx_cons_cons, if_neg hcmp]
        have hle : Q.qle a ((b :: rest2).getD (argminIdx (b :: rest2)) Q.zero) :=
          Q.qle_of_not_qlt hcmp
        refine ⟨by simp, ?_, ?_⟩
        · intro j hj
          cases j with
          | zero => simp [Q.qle]
          | succ j' =>
            have := Q.qle_trans hle (ihmin j' (by simpa using hj))
            simpa using this
        · intro j hj
          exact absurd hj (Nat.not_lt_zero j)

theorem runAcquires_cons (tracks : List Q) (s d : Q) (rest : List (Q × Q)) :
    runAcquires tracks ((s, d) :: rest) =
      ⟨(acquire_track tracks s d).1, s, d, (findFreeIdx s tracks).isNone⟩ ::
        runAcquires (acquire_track tracks s d).2 rest := rfl

theorem runAcquires_free_sound :
    ∀ (reqs : List (Q × Q)) (tracks : List Q),
      (∀ r ∈ reqs, Q.qle Q.zero r.2) →
      (∀ g ∈ runAcquires tracks reqs, g.overwrote = false) →
      (∀ g ∈ runAcquires tracks reqs, trackVal tracks g.lane ≤ g.start.toRat) ∧
      List.Pairwise (fun g1 g2 => g1.lane = g2.lane →
          g1.start.toRat + g1.duration.toRat ≤ g2.start.toRat)
        (runAcquires tracks reqs) := by
  intro reqs
  induction reqs with
  | nil =>
    intro tracks _ _
    exact ⟨by simp [runAcquires], by simp [runAcquires]⟩
  | cons r rest ih =>
    obtain ⟨s, d⟩ := r
    intro tracks hdur hfree
    rw [runAcquires_cons] at hfree ⊢
    have hov : (findFreeIdx s tracks).isNone = false := by
      have := hfree ⟨(acquire_track tracks s d).1, s, d, (findFreeIdx s tracks).isNone⟩
        (List.mem_cons_self _ _)
      simpa using this
    obtain ⟨i, hfi⟩ : ∃ i, findFreeIdx s tracks = some i := by
      revert hov; cases findFreeIdx s tracks <;> simp
    obtain ⟨hilen, hile, _⟩ := findFreeIdx_some_spec s tracks i hfi
    have hacq1 : (acquire_track tracks s d).1 = i := by
      unfold acquire_track; rw [hfi]
    have hacq2 : (acquire_track tracks s d).2 = tracks.set i (s.add d) := by
      unfold acquire_track; rw [hfi]
    rw [hacq1, hacq2] at hfree ⊢
    have hd : (0 : ℚ) ≤ d.toRat := by
      have := (Q.qle_iff _ _).mp (hdur (s, d) (by simp))
      rwa [Q.toRat_zero] at this
    have hsle : (tracks.getD i Q.zero).toRat ≤ s.toRat := (Q.qle_iff _ _).mp hile
    have hmono : ∀ j, trackVal tracks j ≤ trackVal (tracks.set i (s.add d)) j := by
      intro j
      by_cases hj : j = i
      · subst hj
        unfold trackVal
        rw [getD_set_self tracks j (s.add d) (by omega), Q.toRat_add]
        linarith
      · unfold trackVal
        rw [getD_set_ne tracks i j (s.add d) hj]
    obtain ⟨ihA, ihP⟩ := ih (tracks.set i (s.add d))
      (fun x hx => hdur x (by simp [hx]))
      (fun g hg => hfree g (by simp [hg]))
    constructor
    · intro g hg
      rcases List.mem_cons.mp hg with hg0 | hgr
      · subst hg0
        exact hsle
      · exact le_trans (hmono g.lane) (ihA g hgr)
    · rw [List.pairwise_cons]
      refine ⟨?_, ihP⟩
      intro g hg hlane
      have hA := ihA g hg
      simp only at hlane
      rw [← hlane] at hA
      unfold trackVal at hA
      rw [getD_set_self tracks i (s.add d) hilen, Q.toRat_add] at hA
      simpa using hA

/-- C3: over any request sequence against `k` fresh lanes, as long as the
allocator is never forced into the overwrite branch (and durations are
non-negative, as in the source, where they are `scroll_duration ≥ 4` or
`4.0`), no lane receives two overlapping intervals; and each grant marks the
chosen lane busy until `start + duration`, choosing the first lane whose
free-time is `≤ start`, else — when every lane is busy at the start time —
the lane with the minimum free-time, first index on ties. -/
theorem trackAllocator_no_overlap (k : ℕ) (reqs : List (Q × Q))
    (hdur : ∀ r ∈ reqs, Q.qle Q.zero r.2)
    (hfree : ∀ g ∈ runAcquires (List.replicate k Q.zero) reqs,
      g.overwrote = false) :
    List.Pairwise (fun g1 g2 => g1.lane = g2.lane →
        ¬ overlaps g1.start.toRat g1.duration.toRat g2.start.toRat g2.duration.toRat)
      (runAcquires (List.replicate k Q.zero) reqs) ∧
    (∀ (tracks : List Q) (s d : Q), tracks ≠ [] →
      (acquire_track tracks s d).2
          = tracks.set (acquire_track tracks s d).1 (s.add d) ∧
      (acquire_track tracks s d).1 < tracks.length ∧
      ((trackVal tracks (acquire_track tracks s d).1 ≤ s.toRat ∧
          ∀ j < (acquire_track tracks s d).1, s.toRat < trackVal tracks j) ∨
        ((∀ j < tracks.length, s.toRat < trackVal tracks j) ∧
          (∀ j < tracks.length,
            trackVal tracks (acquire_track tracks s d).1 ≤ trackVal tracks j) ∧
          ∀ j < (acquire_track tracks s d).1,
            trackVal tracks (acquire_track tracks s d).1 < trackVal tracks j))) := by
  constructor
  · have h := (runAcquires_free_sound reqs (List.replicate k Q.zero) hdur hfree).2
    refine h.imp ?_
    intro g1 g2 hrel hlane hov
    obtain ⟨_, h2⟩ := hov
    have := hrel hlane
    linarith
  · intro tracks s d hne
    unfold acquire_track
    cases hfi : findFreeIdx s tracks with
    | some i =>
      obtain ⟨hilen, hile, hall⟩ := findFreeIdx_some_spec s tracks i hfi
      refine ⟨rfl, hilen, Or.inl ⟨(Q.qle_iff _ _).mp hile, ?_⟩⟩
      intro j hj
      have hj' := hall j hj
      rw [Q.qle_iff] at hj'
      exact not_le.mp hj'
    | none =>
      obtain ⟨halen, hamin, hafirst⟩ := argminIdx_spec tracks hne
      have hallbusy := findFreeIdx_none_spec s tracks hfi
      refine ⟨rfl, halen, Or.inr ⟨?_, ?_, ?_⟩⟩
      · intro j hj
        have hj' := hallbusy j hj
        rw [Q.qle_iff] at hj'
        exact not_le.mp hj'
      · intro j hj
        have := hamin j hj
        rwa [Q.qle_iff] at this
      · intro j hj
        have := hafirst j hj
        rwa [Q.qlt_iff] at this

/-- C3 witness: two scrolling requests on two fresh lanes, both served by
the free branch, with the resulting grants pairwise non-overlapping per
lane. -/
theorem trackAllocator_no_overlap_witness :
    List.Pairwise (fun g1 g2 => g1.lane = g2.lane →
        ¬ overlaps g1.start.toRat g1.duration.toRat g2.start.toRat g2.duration.toRat)
      (runAcquires (List.replicate 2 Q.zero) reqsWitness) :=
  (trackAllocator_no_overlap 2 reqsWitness (by decide) (by decide)).1

/-! ## C7: the negative-shift clamp -/

theorem scroll_event_zero_head (sd : ℤ) (tr : List Q) (text color : String) :
    ∃ rest, (scroll_event sd tr Q.zero text color).1
      = "Dialogue: 0,0:00:00.00," ++ rest := ⟨_, rfl⟩

theorem static_event_zero_head (tr : List Q) (alignment : String) (dur : Q)
    (text color : String) :
    ∃ rest, (static_event tr alignment Q.zero dur text color).1
      = "Dialogue: 0,0:00:00.00," ++ rest := ⟨_, rfl⟩

/-- C7: a well-formed comment whose parsed timestamp plus the shift is
negative is emitted with start time exactly `0:00:00.00` — the effective
timestamp is clamped to 0 before any event is formatted. -/
theorem build_clamps_negative_shift (cfg : Config) (shift : Q) (st : BuildState)
    (c : Comment) (t : Q) (mode color : ℤ)
    (hp : strTruthy c.p = true) (hm : strTruthy c.m = true)
    (hparse : parseP (c.p.getD "") = some (t, mode, color))
    (hneg : t.toRat + shift.toRat < 0)
    (hclean : pyStrip (c.m.getD "") ≠ "") :
    ∃ rest, (processComment cfg shift st c).events
      = st.events ++ ["Dialogue: 0,0:00:00.00," ++ rest] := by
  have hq : Q.qlt (t.add shift) Q.zero := by
    rw [Q.qlt_iff, Q.toRat_add, Q.toRat_zero]
    exact hneg
  unfold processComment
  rw [if_neg (by simp [hp, hm])]
  simp only [hparse]
  rw [if_pos hq, if_neg hclean]
  by_cases h1 : mode = 1
  · rw [if_pos h1]
    obtain ⟨rest, hrest⟩ := scroll_event_zero_head cfg.scroll_duration
      st.scroll_tracks (pyStrip (c.m.getD "")) (ass_color color)
    exact ⟨rest, by simp [hrest]⟩
  · rw [if_neg h1]
    by_cases h4 : mode = 4
    · rw [if_pos h4]
      obtain ⟨rest, hrest⟩ := static_event_zero_head st.bottom_tracks "bottom"
        (Q.ofInt 4) (pyStrip (c.m.getD "")) (ass_color color)
      exact ⟨rest, by simp [hrest]⟩
    · rw [if_neg h4]
      by_cases h5 : mode = 5
      · rw [if_pos h5]
        obtain ⟨rest, hrest⟩ := static_event_zero_head st.top_tracks "top"
          (Q.ofInt 4) (pyStrip (c.m.getD "")) (ass_color color)
        exact ⟨rest, by simp [hrest]⟩
      · rw [if_neg h5]
        obtain ⟨rest, hrest⟩ := scroll_event_zero_head cfg.scroll_duration
          st.scroll_tracks (pyStrip (c.m.getD "")) (ass_color color)
        exact ⟨rest, by simp [hrest]⟩

/-- C7 witness: the comment at timestamp 5 with shift −6 renders with start
time `0:00:00.00`. -/
theorem build_clamps_negative_shift_witness :
    ∃ rest, (processComment (mkConfig 6 0) (Q.ofInt (-6)) emptyState commentAt5).events
      = emptyState.events ++ ["Dialogue: 0,0:00:00.00," ++ rest] := by
  refine build_clamps_negative_shift (mkConfig 6 0) (Q.ofInt (-6)) emptyState
    commentAt5 ⟨5, 1, by decide⟩ 1 16777215 (by decide) (by decide) rfl ?_ (by decide)
  rw [Q.toRat_ofInt]
  unfold Q.toRat
  norm_num

end Danmaku
